import Mathlib

/-!
Verification development for the DbEnum derive generator
(`src/src/lib.rs` of diesel-derive-enum).

The generator is embedded shallowly:

* the `heck` case conversions used by `stylize_value` are modelled at ASCII
  granularity (Rust identifiers; `char::is_alphanumeric`, `is_lowercase`,
  `is_uppercase`, `to_lowercase`, `to_uppercase` restricted to ASCII, which
  matches `Char.isAlphanum`/`Char.isLower`/`Char.isUpper`/`Char.toLower`/
  `Char.toUpper`);
* a Rust `panic!` / `compile_error!` is modelled as `Except.error` carrying
  the panic message: generation aborts with no artifact;
* byte strings (`&[u8]`, `LitByteStr`) are modelled as `String`: UTF-8
  encoding is injective, so exact byte equality of the encodings of two
  strings coincides with string equality, and `String::from_utf8_lossy` is
  the identity on such inputs.
-/

namespace DieselDeriveEnum

/-! ### The `heck` 0.4 word-splitting algorithm

`stylize_value` delegates to `heck`'s `ToSnakeCase`, `ToKebabCase`,
`ToLowerCamelCase`, `ToUpperCamelCase` and `ToShoutySnakeCase`.  All of them
share one segmentation routine (`heck::transform`): the input is split on
non-alphanumeric characters, and each segment is further split at case
boundaries (a lowercase character followed by an uppercase one splits after
the lowercase one; an uppercase run followed by a lowercase character splits
before the run's last character). -/

/-- `heck`'s `WordMode`: the case of the previous cased character of the
current word. -/
inductive WordMode
  | Boundary
  | Lowercase
  | Uppercase
deriving DecidableEq

/-- The inner loop of `heck::transform` on one alphanumeric segment:
`mode` is the current `WordMode`, `cur` the word accumulated so far,
the third argument the remaining characters.  Returns the list of words. -/
def segWords : WordMode → List Char → List Char → List (List Char)
  | _, _, [] => []
  | _, cur, [c] => [cur ++ [c]]
  | mode, cur, c :: next :: rest =>
    let nextMode := if c.isLower then WordMode.Lowercase
      else if c.isUpper then WordMode.Uppercase
      else mode
    if nextMode = WordMode.Lowercase ∧ next.isUpper then
      (cur ++ [c]) :: segWords WordMode.Boundary [] (next :: rest)
    else if mode = WordMode.Uppercase ∧ c.isUpper ∧ next.isLower then
      cur :: segWords WordMode.Boundary [c] (next :: rest)
    else
      segWords nextMode (cur ++ [c]) (next :: rest)

/-- Rust's `str::split` on non-alphanumeric characters (empty segments
included, as in Rust; they contribute no words). -/
def splitSegs : List Char → List (List Char)
  | [] => [[]]
  | c :: rest =>
    match splitSegs rest with
    | [] => [[c]]
    | seg :: segs =>
      if c.isAlphanum then (c :: seg) :: segs else [] :: seg :: segs

/-- All words of an identifier, in order, as produced by `heck::transform`. -/
def heckWords (s : List Char) : List (List Char) :=
  ((splitSegs s).map (segWords WordMode.Boundary [])).flatten

/-- `heck::lowercase` (ASCII; the final-sigma special case cannot arise). -/
def lowercaseWord (w : List Char) : List Char := w.map Char.toLower

/-- `heck::uppercase` (ASCII). -/
def uppercaseWord (w : List Char) : List Char := w.map Char.toUpper

/-- `heck::capitalize` (ASCII): first character uppercased, rest lowercased. -/
def capitalizeWord : List Char → List Char
  | [] => []
  | c :: rest => c.toUpper :: rest.map Char.toLower

/-- `heck::ToSnakeCase`: lowercased words joined with `_`. -/
def to_snake_case (s : String) : String :=
  String.intercalate "_" ((heckWords s.data).map (fun w => String.mk (lowercaseWord w)))

/-- `heck::ToKebabCase`: lowercased words joined with `-`. -/
def to_kebab_case (s : String) : String :=
  String.intercalate "-" ((heckWords s.data).map (fun w => String.mk (lowercaseWord w)))

/-- `heck::ToShoutySnakeCase`: uppercased words joined with `_`. -/
def to_shouty_snake_case (s : String) : String :=
  String.intercalate "_" ((heckWords s.data).map (fun w => String.mk (uppercaseWord w)))

/-- `heck::ToUpperCamelCase`: capitalized words concatenated. -/
def to_upper_camel_case (s : String) : String :=
  String.join ((heckWords s.data).map (fun w => String.mk (capitalizeWord w)))

/-- `heck::ToLowerCamelCase`: first word lowercased, later words capitalized,
concatenated. -/
def to_lower_camel_case (s : String) : String :=
  match heckWords s.data with
  | [] => ""
  | w :: ws =>
    String.mk (lowercaseWord w) ++ String.join (ws.map (fun v => String.mk (capitalizeWord v)))

/-- Rust's `str::to_uppercase` (ASCII). -/
def str_to_uppercase (s : String) : String := String.mk (s.data.map Char.toUpper)

/-! ### `CaseStyle` (src/src/lib.rs lines 114-139) -/

/-- Defines the casing for the database representation (source lines 116-124). -/
inductive CaseStyle
  | Camel
  | Kebab
  | Pascal
  | Upper
  | ScreamingSnake
  | Snake
  | Verbatim
deriving DecidableEq

/-- `CaseStyle::from_string` (source lines 127-138).  The `panic!` on an
unsupported token is modelled as `Except.error` with the panic message. -/
def CaseStyle.from_string (name : String) : Except String CaseStyle :=
  if name = "camelCase" then .ok .Camel
  else if name = "kebab-case" then .ok .Kebab
  else if name = "PascalCase" then .ok .Pascal
  else if name = "SCREAMING_SNAKE_CASE" then .ok .ScreamingSnake
  else if name = "UPPERCASE" then .ok .Upper
  else if name = "snake_case" then .ok .Snake
  else if name = "verbatim" ∨ name = "verbatimcase" then .ok .Verbatim
  else .error ("unsupported casing: \x60" ++ name ++ "\x60")

/-- `stylize_value` (source lines 261-271). -/
def stylize_value (value : String) (style : CaseStyle) : String :=
  match style with
  | .Camel => to_lower_camel_case value
  | .Kebab => to_kebab_case value
  | .Pascal => to_upper_camel_case value
  | .Upper => str_to_uppercase value
  | .ScreamingSnake => to_shouty_snake_case value
  | .Snake => to_snake_case value
  | .Verbatim => value

/-! ### Attributes and `val_from_attrs` (source lines 96-112)

An attribute is its path plus the outcome of `attr.parse_meta()`:
`nameValueStr s` models a body parsing as `Meta::NameValue` with a string
literal `s`; `otherMeta` models a body parsing as any other `Meta`
(a list, a bare path, or a name-value with a non-string literal);
`parseFail` models `parse_meta()` returning `Err`. -/

inductive AttrBody
  | nameValueStr (s : String)
  | otherMeta
  | parseFail
deriving DecidableEq

structure Attr where
  path : String
  body : AttrBody
deriving DecidableEq

/-- `val_from_attrs` (source lines 96-112).  Scans the attributes in order
for the first whose path is `attrname`.  `attr.parse_meta().ok()?` makes a
parse failure return `None` for the whole function; a body that parses as
metadata but not as `name = "value"` with a string literal panics, modelled
as `Except.error` with the panic message. -/
def val_from_attrs (attrs : List Attr) (attrname : String) : Except String (Option String) :=
  match attrs with
  | [] => .ok none
  | a :: rest =>
    if a.path = attrname then
      match a.body with
      | .nameValueStr s => .ok (some s)
      | .otherMeta =>
        .error ("Attribute \x27" ++ attrname ++ "\x27 must have form: " ++ attrname ++ " = \"value\"")
      | .parseFail => .ok none
    else val_from_attrs rest attrname

/-! ### Derive input (the `syn::DeriveInput` fragment the generator reads) -/

/-- The shape of a variant's fields (`syn::Fields`): only `unit` passes the
fieldless check. -/
inductive FieldsKind
  | unit
  | named
  | unnamed
deriving DecidableEq

/-- One enum variant: identifier, attributes, fields shape. -/
structure Variant where
  ident : String
  attrs : List Attr
  fields : FieldsKind
deriving DecidableEq

/-- `true` exactly when the variant matches `Fields::Unit`. -/
def Variant.isUnit (v : Variant) : Bool :=
  match v.fields with
  | .unit => true
  | _ => false

/-- `input.data`: an enum with its variants, or any other data shape. -/
inductive DataKind
  | enumData (variants : List Variant)
  | other
deriving DecidableEq

/-- The derive input: enum identifier, type-level attributes, data. -/
structure DeriveInput where
  ident : String
  attrs : List Attr
  data : DataKind
deriving DecidableEq

/-- The enabled backend set (the crate's `postgres` / `mysql` / `sqlite`
cargo features, `cfg!` in the source). -/
structure Features where
  postgres : Bool
  mysql : Bool
  sqlite : Bool
deriving DecidableEq

/-! ### Configuration resolution (source lines 39-66 of `derive`) -/

/-- The configuration resolved by `derive` before generation. -/
structure ResolvedConfig where
  existing_mapping_path : Option String
  pg_internal_type : String
  new_diesel_mapping : String
  case_style : CaseStyle
deriving DecidableEq

/-- Lines 39-66 of `derive`: attribute lookups, conflict checks, defaults.
Each `panic!` is `Except.error` with the panic message; an error from an
attribute lookup propagates. -/
def resolve_config (features : Features) (input : DeriveInput) : Except String ResolvedConfig :=
  match val_from_attrs input.attrs "ExistingTypePath" with
  | .error e => .error e
  | .ok existing_mapping_path =>
    if !features.postgres && existing_mapping_path.isSome then
      .error "ExistingTypePath attribute only applies when the \x27postgres\x27 feature is enabled"
    else
      match val_from_attrs input.attrs "PgType" with
      | .error e => .error e
      | .ok pg_internal_type_opt =>
        if existing_mapping_path.isSome && pg_internal_type_opt.isSome then
          .error "Cannot specify both \x60ExistingTypePath\x60 and \x60PgType\x60 attributes"
        else
          let pg_internal_type := pg_internal_type_opt.getD (to_snake_case input.ident)
          match val_from_attrs input.attrs "DieselType" with
          | .error e => .error e
          | .ok new_diesel_mapping_opt =>
            if existing_mapping_path.isSome && new_diesel_mapping_opt.isSome then
              .error "Cannot specify both \x60ExistingTypePath\x60 and \x60DieselType\x60 attributes"
            else
              let new_diesel_mapping := new_diesel_mapping_opt.getD (input.ident ++ "Mapping")
              match val_from_attrs input.attrs "DbValueStyle" with
              | .error e => .error e
              | .ok case_style_opt =>
                match CaseStyle.from_string (case_style_opt.getD "snake_case") with
                | .error e => .error e
                | .ok case_style =>
                  .ok ⟨existing_mapping_path, pg_internal_type, new_diesel_mapping, case_style⟩

/-! ### Generation (source lines 141-259) -/

/-- The canonical database string of one variant (source lines 164-170):
the `db_rename` override if present, else `stylize_value` of the
identifier. -/
def variant_db_value (case_style : CaseStyle) (v : Variant) : Except String String :=
  match val_from_attrs v.attrs "db_rename" with
  | .error e => .error e
  | .ok r => .ok (r.getD (stylize_value v.ident case_style))

/-- The `variants_db` list (source lines 164-170): the canonical string of
every variant, in declaration order; a panic in any per-variant lookup
aborts. -/
def map_variants_db (case_style : CaseStyle) : List Variant → Except String (List String)
  | [] => .ok []
  | v :: rest =>
    match variant_db_value case_style v with
    | .error e => .error e
    | .ok s =>
      match map_variants_db case_style rest with
      | .error e => .error e
      | .ok ss => .ok (s :: ss)

/-- What generation produces, at the level of detail the spec talks about:
the wrapper module name, the canonical strings in declaration order, and
which pieces were emitted. -/
structure Artifact where
  modname : String
  variants_db : List String
  uses_existing : Bool
  new_diesel_mapping : String
  pg_internal_type : String
  pg_enabled : Bool
  mysql_enabled : Bool
  sqlite_enabled : Bool
deriving DecidableEq

/-- `generate_derive_enum_impls` (source lines 141-259).  The map over
variants building `variant_ids` panics at the first non-unit variant with
the fixed message `Variants must be fieldless`; then the canonical strings
are computed in declaration order. -/
def generate_derive_enum_impls (features : Features) (cfg : ResolvedConfig)
    (enum_ty : String) (variants : List Variant) : Except String Artifact :=
  if variants.all Variant.isUnit then
    match map_variants_db cfg.case_style variants with
    | .error e => .error e
    | .ok variants_db =>
      .ok ⟨"db_enum_impl_" ++ enum_ty, variants_db, cfg.existing_mapping_path.isSome,
        cfg.new_diesel_mapping, cfg.pg_internal_type,
        features.postgres, features.mysql, features.sqlite⟩
  else
    .error "Variants must be fieldless"

/-- `derive` (source lines 36-94): resolve the configuration, then generate
for an enum; any other data shape is a compile error. -/
def derive (features : Features) (input : DeriveInput) : Except String Artifact :=
  match resolve_config features input with
  | .error e => .error e
  | .ok cfg =>
    match input.data with
    | .enumData variants => generate_derive_enum_impls features cfg input.ident variants
    | .other => .error "derive(DbEnum) can only be applied to enums"

/-! ### The generated codec (`generate_common`, source lines 273-294)

A tag of an enum with canonical strings `l` (in declaration order) is its
declaration index, `Fin l.length`. -/

/-- `String::from_utf8_lossy`: the identity on the (valid UTF-8) byte
strings of this model. -/
def from_utf8_lossy (s : String) : String := s

/-- The generated `db_str_representation` (source lines 280-284): a match
sending each variant to its canonical string. -/
def db_str_representation (l : List String) (e : Fin l.length) : String := l.get e

/-- Index of the first match arm whose byte-string pattern equals `bytes`:
Rust `match` tries arms in declaration order. -/
def first_match : (l : List String) → String → Option (Fin l.length)
  | [], _ => none
  | s :: rest, bytes =>
    if s = bytes then some ⟨0, Nat.succ_pos _⟩
    else (first_match rest bytes).map Fin.succ

/-- The generated `from_db_binary_representation` (source lines 286-292)
for the enum named `enum_ty`.  The fallback arm builds the error string
from the offending bytes alone; `enum_ty` does not occur in it. -/
def from_db_binary_representation (enum_ty : String) (l : List String)
    (bytes : String) : Except String (Fin l.length) :=
  match first_match l bytes with
  | some i => .ok i
  | none => .error ("Unrecognized enum variant: \x27" ++ from_utf8_lossy bytes ++ "\x27")

/-! ### Backend wrappers (source lines 386-499)

`ToSql` for postgres and mysql writes `db_str_representation(self).as_bytes()`
verbatim; sqlite's goes through `<str as ToSql<Text, Sqlite>>`, which stores
the same bytes.  `FromSql` for postgres and mysql passes the raw bytes to
`from_db_binary_representation`; sqlite's first decodes the raw value as
`Vec<u8>` via `Binary`, the identity on the stored bytes. -/

def pg_to_sql (l : List String) (e : Fin l.length) : String := db_str_representation l e

def pg_from_sql (enum_ty : String) (l : List String) (raw : String) :
    Except String (Fin l.length) := from_db_binary_representation enum_ty l raw

def mysql_to_sql (l : List String) (e : Fin l.length) : String := db_str_representation l e

def mysql_from_sql (enum_ty : String) (l : List String) (raw : String) :
    Except String (Fin l.length) := from_db_binary_representation enum_ty l raw

def sqlite_to_sql (l : List String) (e : Fin l.length) : String := db_str_representation l e

def sqlite_from_sql (enum_ty : String) (l : List String) (raw : String) :
    Except String (Fin l.length) := from_db_binary_representation enum_ty l raw

/-! ### Helper lemmas -/

instance {ε α : Type} [DecidableEq ε] [DecidableEq α] : DecidableEq (Except ε α) := fun x y =>
  match x, y with
  | .ok a, .ok b => decidable_of_iff (a = b) (by simp)
  | .ok _, .error _ => isFalse (fun h => Except.noConfusion h)
  | .error _, .ok _ => isFalse (fun h => Except.noConfusion h)
  | .error e, .error f => decidable_of_iff (e = f) (by simp)

theorem first_match_get {l : List String} {b : String} {i : Fin l.length}
    (h : first_match l b = some i) : l.get i = b := by
  induction l with
  | nil => exact absurd i.isLt (by simp)
  | cons s rest ih =>
    rw [first_match] at h
    by_cases hs : s = b
    · rw [if_pos hs] at h
      cases h
      exact hs
    · rw [if_neg hs] at h
      rcases Option.map_eq_some'.mp h with ⟨j, hj, hji⟩
      cases hji
      exact ih hj

theorem first_match_eq_none_iff {l : List String} {b : String} :
    first_match l b = none ↔ b ∉ l := by
  induction l with
  | nil => simp [first_match]
  | cons s rest ih =>
    by_cases hs : s = b
    · simp [first_match, hs]
    · simp only [first_match, if_neg hs, Option.map_eq_none', ih, List.mem_cons]
      constructor
      · rintro hnr (hbs | hbr)
        · exact hs hbs.symm
        · exact hnr hbr
      · intro hn hbr
        exact hn (Or.inr hbr)

theorem first_match_isSome_iff {l : List String} {b : String} :
    (first_match l b).isSome = true ↔ b ∈ l := by
  rw [Option.isSome_iff_ne_none, ne_eq, first_match_eq_none_iff, not_not]

theorem first_match_get_of_nodup {l : List String} (h : l.Nodup) (e : Fin l.length) :
    first_match l (l.get e) = some e := by
  induction l with
  | nil => exact absurd e.isLt (by simp)
  | cons s rest ih =>
    rcases List.nodup_cons.mp h with ⟨hs, hrest⟩
    induction e using Fin.cases with
    | zero => simp [first_match]
    | succ j =>
      have hmem : rest.get j ∈ rest := by
        have := List.get_mem rest j.1 j.2
        simp only [Fin.eta] at this
        exact this
      have hne : s ≠ (s :: rest).get j.succ := by
        intro hh
        exact hs (by simpa using hh ▸ hmem)
      rw [first_match, if_neg hne]
      have : first_match rest (rest.get j) = some j := ih hrest j
      have hgs : (s :: rest).get j.succ = rest.get j := rfl
      rw [hgs, this]
      rfl

theorem first_match_of_first : ∀ (l : List String) (b : String) (i : Fin l.length),
    l.get i = b → (∀ j : Fin l.length, j < i → l.get j ≠ b) →
    first_match l b = some i := by
  intro l
  induction l with
  | nil => intro b i _ _; exact absurd i.isLt (by simp)
  | cons s rest ih =>
    intro b i hget hmin
    induction i using Fin.cases with
    | zero =>
      rw [first_match, if_pos (show s = b from hget)]
      rfl
    | succ j =>
      have hs : ¬ s = b := by
        have h0 := hmin (0 : Fin (rest.length + 1)) (Fin.succ_pos j)
        simpa using h0
      have hget' : rest.get j = b := hget
      have hmin' : ∀ k : Fin rest.length, k < j → rest.get k ≠ b := by
        intro k hk
        have := hmin k.succ (Fin.succ_lt_succ_iff.mpr hk)
        simpa using this
      rw [first_match, if_neg hs, ih b j hget' hmin']
      rfl

/-! ### Claim theorems -/

/-- C8: the case-style transformer satisfies the concrete examples
`stylize_value "FooBar" snake_case = "foo_bar"`, kebab-case `"foo-bar"`,
camelCase `"fooBar"`, SCREAMING_SNAKE_CASE `"FOO_BAR"`, and verbatim is the
identity on every identifier. -/
theorem c8_style_examples :
    stylize_value "FooBar" CaseStyle.Snake = "foo_bar" ∧
    stylize_value "FooBar" CaseStyle.Kebab = "foo-bar" ∧
    stylize_value "FooBar" CaseStyle.Camel = "fooBar" ∧
    stylize_value "FooBar" CaseStyle.ScreamingSnake = "FOO_BAR" ∧
    ∀ s : String, stylize_value s CaseStyle.Verbatim = s :=
  ⟨by decide, by decide, by decide, by decide, fun _ => rfl⟩

/-- C4 counterexample: the token `verbatimcase` is none of the 7 recognized
tokens, yet `CaseStyle::from_string` accepts it (as `Verbatim`) instead of
raising the fatal error the claim requires for every other token. -/
theorem c4_counterexample :
    "verbatimcase" ∉ (["camelCase", "kebab-case", "PascalCase", "SCREAMING_SNAKE_CASE",
        "UPPERCASE", "snake_case", "verbatim"] : List String) ∧
    CaseStyle.from_string "verbatimcase" = .ok CaseStyle.Verbatim :=
  ⟨by decide, by decide⟩

/-- C4 (amended): the case-style directive accepts exactly the 7 recognized
tokens plus the undocumented alias `verbatimcase` (also mapped to verbatim);
for every other token `CaseStyle::from_string` raises a fatal error whose
message names the invalid token. -/
theorem c4_case_style_tokens :
    (CaseStyle.from_string "camelCase" = .ok .Camel ∧
     CaseStyle.from_string "kebab-case" = .ok .Kebab ∧
     CaseStyle.from_string "PascalCase" = .ok .Pascal ∧
     CaseStyle.from_string "SCREAMING_SNAKE_CASE" = .ok .ScreamingSnake ∧
     CaseStyle.from_string "UPPERCASE" = .ok .Upper ∧
     CaseStyle.from_string "snake_case" = .ok .Snake ∧
     CaseStyle.from_string "verbatim" = .ok .Verbatim ∧
     CaseStyle.from_string "verbatimcase" = .ok .Verbatim) ∧
    ∀ s : String,
      s ∉ (["camelCase", "kebab-case", "PascalCase", "SCREAMING_SNAKE_CASE",
            "UPPERCASE", "snake_case", "verbatim", "verbatimcase"] : List String) →
      CaseStyle.from_string s = .error ("unsupported casing: \x60" ++ s ++ "\x60") := by
  refine ⟨⟨by decide, by decide, by decide, by decide, by decide, by decide, by decide, by decide⟩, ?_⟩
  intro s hs
  simp only [List.mem_cons, List.not_mem_nil, or_false, not_or] at hs
  obtain ⟨h1, h2, h3, h4, h5, h6, h7, h8⟩ := hs
  simp only [CaseStyle.from_string, if_neg h1, if_neg h2, if_neg h3, if_neg h4, if_neg h5,
    if_neg h6, if_neg (not_or.mpr ⟨h7, h8⟩)]

/-- C4 witness: the amended theorem applied to the concrete unknown token
`bogus`. -/
theorem c4_case_style_tokens_witness :
    CaseStyle.from_string "bogus" = .error "unsupported casing: \x60bogus\x60" :=
  c4_case_style_tokens.2 "bogus" (by decide)

/-- C10 counterexample: an occurrence whose body parses as metadata but not
in `name = "value"` string form (here `otherMeta`) raises the fatal error
`Attribute 'DieselType' must have form: DieselType = "value"`; the claim
says it should instead be treated as absent (`.ok none`). -/
theorem c10_counterexample :
    val_from_attrs [⟨"DieselType", AttrBody.otherMeta⟩] "DieselType" ≠ .ok none ∧
    val_from_attrs [⟨"DieselType", AttrBody.otherMeta⟩] "DieselType" =
      .error "Attribute \x27DieselType\x27 must have form: DieselType = \"value\"" :=
  ⟨by decide, by decide⟩

/-- C10 (amended): directive lookup takes the first occurrence: if the same
directive name appears on multiple attributes, the first occurrence in
declaration order decides the result and later occurrences are silently
ignored; a first occurrence whose body fails to parse as metadata at all
yields no value (the directive is treated as absent), a first occurrence in
`name = "value"` string form yields its value, and a first occurrence that
parses as metadata of any other shape raises a fatal error naming the
required form. -/
theorem c10_first_occurrence (pre post : List Attr) (a : Attr) (attrname : String)
    (hpre : ∀ x ∈ pre, x.path ≠ attrname) (ha : a.path = attrname) :
    val_from_attrs (pre ++ a :: post) attrname =
      match a.body with
      | .nameValueStr s => .ok (some s)
      | .otherMeta =>
        .error ("Attribute \x27" ++ attrname ++ "\x27 must have form: " ++ attrname ++
          " = \"value\"")
      | .parseFail => .ok none := by
  induction pre with
  | nil =>
    rw [List.nil_append, val_from_attrs, if_pos ha]
  | cons x xs ih =>
    have hx : ¬ x.path = attrname := hpre x (List.mem_cons_self x xs)
    rw [List.cons_append, val_from_attrs, if_neg hx]
    exact ih (fun y hy => hpre y (List.mem_cons_of_mem x hy))

/-- C10 witness: the amended theorem applied to a concrete attribute list in
which the first `DieselType` occurrence carries `"Z"` and a later one
carries `"W"`: the first value wins. -/
theorem c10_first_occurrence_witness :
    val_from_attrs [⟨"Other", AttrBody.nameValueStr "q"⟩,
        ⟨"DieselType", AttrBody.nameValueStr "Z"⟩,
        ⟨"DieselType", AttrBody.nameValueStr "W"⟩] "DieselType" = .ok (some "Z") :=
  c10_first_occurrence [⟨"Other", AttrBody.nameValueStr "q"⟩]
    [⟨"DieselType", AttrBody.nameValueStr "W"⟩]
    ⟨"DieselType", AttrBody.nameValueStr "Z"⟩ "DieselType" (by decide) rfl

/-- C7: the canonical string of a tag equals the `db_rename` override
whenever one is present, for every case style; only a tag lacking an
override gets `stylize_value` of its identifier under the chosen style. -/
theorem c7_override_precedence (v : Variant) (s : String) (style other_style : CaseStyle) :
    (val_from_attrs v.attrs "db_rename" = .ok (some s) →
      variant_db_value style v = .ok s ∧ variant_db_value other_style v = .ok s) ∧
    (val_from_attrs v.attrs "db_rename" = .ok none →
      variant_db_value style v = .ok (stylize_value v.ident style)) := by
  constructor
  · intro h
    constructor <;> simp [variant_db_value, h]
  · intro h
    simp [variant_db_value, h]

/-- C7 witness: a variant with override `custom` has canonical string
`custom` under both snake_case and camelCase; one without an override gets
the styled identifier. -/
theorem c7_override_precedence_witness :
    variant_db_value CaseStyle.Snake
        ⟨"FooBar", [⟨"db_rename", AttrBody.nameValueStr "custom"⟩], FieldsKind.unit⟩ =
      .ok "custom" ∧
    variant_db_value CaseStyle.Camel
        ⟨"FooBar", [⟨"db_rename", AttrBody.nameValueStr "custom"⟩], FieldsKind.unit⟩ =
      .ok "custom" ∧
    variant_db_value CaseStyle.Snake ⟨"FooBar", [], FieldsKind.unit⟩ = .ok "foo_bar" := by
  refine ⟨?_, ?_, ?_⟩
  · exact ((c7_override_precedence
      ⟨"FooBar", [⟨"db_rename", AttrBody.nameValueStr "custom"⟩], FieldsKind.unit⟩
      "custom" CaseStyle.Snake CaseStyle.Camel).1 rfl).1
  · exact ((c7_override_precedence
      ⟨"FooBar", [⟨"db_rename", AttrBody.nameValueStr "custom"⟩], FieldsKind.unit⟩
      "custom" CaseStyle.Snake CaseStyle.Camel).1 rfl).2
  · have := (c7_override_precedence ⟨"FooBar", [], FieldsKind.unit⟩
      "custom" CaseStyle.Snake CaseStyle.Camel).2 rfl
    exact this.trans (by decide)

/-- C1 counterexample: an EnumSpec whose two tags both resolve (via
`db_rename`) to the canonical string `x` is accepted by generation, and
decoding the bytes produced by encoding the later tag (index 1) returns the
earlier tag (index 0), so `decode(encode(t)) = t` fails as stated. -/
theorem c1_counterexample :
    (derive ⟨true, true, true⟩
        ⟨"MyEnum", [],
          DataKind.enumData
            [⟨"A", [⟨"db_rename", AttrBody.nameValueStr "x"⟩], FieldsKind.unit⟩,
             ⟨"B", [⟨"db_rename", AttrBody.nameValueStr "x"⟩], FieldsKind.unit⟩]⟩).map
      Artifact.variants_db = .ok ["x", "x"] ∧
    pg_from_sql "MyEnum" ["x", "x"] (pg_to_sql ["x", "x"] ⟨1, by decide⟩) =
      .ok ⟨0, by decide⟩ ∧
    (⟨0, by decide⟩ : Fin 2) ≠ ⟨1, by decide⟩ :=
  ⟨by decide, by decide, by decide⟩

/-- C1 (amended): for every EnumSpec whose tags' canonical strings are
pairwise distinct, every tag `t` and every enabled backend (postgres, mysql,
sqlite), decoding the bytes produced by encoding `t` returns `t`. -/
theorem c1_round_trip_of_nodup (enum_ty : String) (l : List String) (h : l.Nodup)
    (e : Fin l.length) :
    pg_from_sql enum_ty l (pg_to_sql l e) = .ok e ∧
    mysql_from_sql enum_ty l (mysql_to_sql l e) = .ok e ∧
    sqlite_from_sql enum_ty l (sqlite_to_sql l e) = .ok e := by
  have hcore : from_db_binary_representation enum_ty l (db_str_representation l e) = .ok e := by
    simp only [from_db_binary_representation, db_str_representation,
      first_match_get_of_nodup h e]
  exact ⟨hcore, hcore, hcore⟩

/-- C1 witness: the amended theorem on the table `["foo_bar", "baz_qux"]`
(whose entries are distinct) at tag index 0. -/
theorem c1_round_trip_witness :
    (["foo_bar", "baz_qux"] : List String).Nodup ∧
    pg_from_sql "MyEnum" ["foo_bar", "baz_qux"]
      (pg_to_sql ["foo_bar", "baz_qux"] ⟨0, by decide⟩) = .ok ⟨0, by decide⟩ :=
  ⟨by decide, (c1_round_trip_of_nodup "MyEnum" ["foo_bar", "baz_qux"] (by decide)
    ⟨0, by decide⟩).1⟩

/-- C2 counterexample: two tags (declared in the order `Apple`, `Banana`)
both resolving to the canonical string `dup` are accepted with no error, but
decoding the shared canonical bytes returns index 0, the EARLIER-declared
tag, not the later-declared one (index 1) that the claim says wins. -/
theorem c2_counterexample :
    (derive ⟨true, true, true⟩
        ⟨"Fruit", [],
          DataKind.enumData
            [⟨"Apple", [⟨"db_rename", AttrBody.nameValueStr "dup"⟩], FieldsKind.unit⟩,
             ⟨"Banana", [⟨"db_rename", AttrBody.nameValueStr "dup"⟩], FieldsKind.unit⟩]⟩).map
      Artifact.variants_db = .ok ["dup", "dup"] ∧
    from_db_binary_representation "Fruit" ["dup", "dup"] "dup" = .ok ⟨0, by decide⟩ ∧
    (Except.ok (⟨0, by decide⟩ : Fin 2) : Except String (Fin 2)) ≠ .ok ⟨1, by decide⟩ :=
  ⟨by decide, by decide, by decide⟩

/-- C2 (amended): when two declared tags resolve to the same canonical
string, no error is raised (injectivity of the forward mapping is not
enforced) and decoding the shared canonical bytes returns the
EARLIER-declared of the matching tags: the generated match tries its arms in
declaration order and the first matching arm wins. -/
theorem c2_earlier_tag_wins (enum_ty : String) (l : List String) (b : String)
    (i : Fin l.length) (hget : l.get i = b)
    (hmin : ∀ j : Fin l.length, j < i → l.get j ≠ b) :
    from_db_binary_representation enum_ty l b = .ok i := by
  simp only [from_db_binary_representation, first_match_of_first l b i hget hmin]

/-- C2 witness: the amended theorem on the duplicate table `["dup", "dup"]`:
the earliest matching index 0 is returned. -/
theorem c2_earlier_tag_wins_witness :
    (["dup", "dup"] : List String).get ⟨0, by decide⟩ = "dup" ∧
    from_db_binary_representation "Fruit" ["dup", "dup"] "dup" = .ok ⟨0, by decide⟩ :=
  ⟨by decide, c2_earlier_tag_wins "Fruit" ["dup", "dup"] "dup" ⟨0, by decide⟩
    (by decide) (by decide)⟩

/-- C3 counterexample: on the duplicate table `["x", "x"]` the bytes `x`
equal the canonical bytes of tag index 1, yet decode does not return index 1
(it returns the earlier index 0), refuting the claimed `iff`; moreover the
decode error value is built from the offending bytes alone: for the enums
named `FooEnum` and `BarEnum` it is the identical string, which does not
contain the enum's name, so the error does not carry the enum's identity. -/
theorem c3_counterexample :
    ((["x", "x"] : List String).get ⟨1, by decide⟩ = "x" ∧
      from_db_binary_representation "FooEnum" ["x", "x"] "x" ≠ .ok ⟨1, by decide⟩) ∧
    (from_db_binary_representation "FooEnum" ["foo"] "zzz" =
        .error "Unrecognized enum variant: \x27zzz\x27" ∧
      from_db_binary_representation "BarEnum" ["foo"] "zzz" =
        .error "Unrecognized enum variant: \x27zzz\x27" ∧
      ¬ List.IsInfix "FooEnum".data "Unrecognized enum variant: \x27zzz\x27".data) :=
  ⟨⟨by decide, by decide⟩, by decide, by decide, by decide⟩

/-- C3 (amended): decode succeeds exactly on an exact byte match: decode
returns some tag iff the bytes equal some declared tag's canonical bytes
(no case-insensitive or trimmed fallback), and any returned tag's canonical
bytes equal the input exactly; for bytes matching no forward-table entry it
returns a value-level data error (an `Except.error`, never a process fault)
carrying the best-effort text rendering of the offending bytes (the error
value does not name the enum; only the result type ties it to the enum). -/
theorem c3_exact_match_decode (enum_ty : String) (l : List String) (b : String) :
    (∀ i : Fin l.length, from_db_binary_representation enum_ty l b = .ok i → l.get i = b) ∧
    ((∃ i : Fin l.length, from_db_binary_representation enum_ty l b = .ok i) ↔ b ∈ l) ∧
    (b ∉ l →
      from_db_binary_representation enum_ty l b =
        .error ("Unrecognized enum variant: \x27" ++ from_utf8_lossy b ++ "\x27")) := by
  refine ⟨?_, ⟨?_, ?_⟩, ?_⟩
  · intro i h
    apply first_match_get
    simp only [from_db_binary_representation] at h
    cases hm : first_match l b with
    | none => rw [hm] at h; exact absurd h (by simp)
    | some j => rw [hm] at h; cases h; exact hm ▸ rfl
  · rintro ⟨i, h⟩
    simp only [from_db_binary_representation] at h
    cases hm : first_match l b with
    | none => rw [hm] at h; exact absurd h (by simp)
    | some j =>
      have : (first_match l b).isSome = true := by rw [hm]; rfl
      exact first_match_isSome_iff.mp this
  · intro hmem
    have hsome : (first_match l b).isSome = true := first_match_isSome_iff.mpr hmem
    rcases Option.isSome_iff_exists.mp hsome with ⟨i, hi⟩
    exact ⟨i, by simp only [from_db_binary_representation, hi]⟩
  · intro hnot
    have hnone : first_match l b = none := first_match_eq_none_iff.mpr hnot
    simp only [from_db_binary_representation, hnone]

/-- C3 witness: the amended theorem on the table `["foo"]` with the unknown
bytes `zzz`: decode returns the data error rendering `zzz`. -/
theorem c3_exact_match_decode_witness :
    "zzz" ∉ (["foo"] : List String) ∧
    from_db_binary_representation "MyEnum" ["foo"] "zzz" =
      .error "Unrecognized enum variant: \x27zzz\x27" :=
  ⟨by decide, (c3_exact_match_decode "MyEnum" ["foo"] "zzz").2.2 (by decide)⟩

/-- C5 counterexample: a tag declared with named fields makes generation
fail, but the error is the fixed message `Variants must be fieldless`, which
does not contain the offending tag's identifier `Foo`: the report does not
identify the tag. -/
theorem c5_counterexample :
    derive ⟨true, true, true⟩
        ⟨"MyEnum", [], DataKind.enumData [⟨"Foo", [], FieldsKind.named⟩]⟩ =
      .error "Variants must be fieldless" ∧
    ¬ List.IsInfix "Foo".data "Variants must be fieldless".data :=
  ⟨by decide, by decide⟩

/-- C5 (amended): for every EnumSpec containing a tag declared with an
associated payload (a non-unit variant), generation fails with a
configuration error and no artifact is produced; the error is the fixed
message `Variants must be fieldless` and does not name the offending tag. -/
theorem c5_fieldless_error (features : Features) (input : DeriveInput) (cfg : ResolvedConfig)
    (variants : List Variant) (v : Variant)
    (hdata : input.data = DataKind.enumData variants)
    (hv : v ∈ variants) (hfields : v.fields ≠ FieldsKind.unit)
    (hres : resolve_config features input = .ok cfg) :
    derive features input = .error "Variants must be fieldless" := by
  have hvu : v.isUnit = false := by
    cases hf : v.fields with
    | unit => exact absurd hf hfields
    | named => simp [Variant.isUnit, hf]
    | unnamed => simp [Variant.isUnit, hf]
  have hall : variants.all Variant.isUnit = false := by
    cases hb : variants.all Variant.isUnit with
    | false => rfl
    | true => exact absurd (List.all_eq_true.mp hb v hv) (by simp [hvu])
  simp [derive, hres, hdata, generate_derive_enum_impls, hall]

/-- C5 witness: the amended theorem on a concrete enum with one
named-fields variant. -/
theorem c5_fieldless_error_witness :
    derive ⟨true, true, true⟩
        ⟨"Veg", [], DataKind.enumData [⟨"Leek", [], FieldsKind.unnamed⟩]⟩ =
      .error "Variants must be fieldless" :=
  c5_fieldless_error ⟨true, true, true⟩
    ⟨"Veg", [], DataKind.enumData [⟨"Leek", [], FieldsKind.unnamed⟩]⟩
    ⟨none, "veg", "VegMapping", CaseStyle.Snake⟩
    [⟨"Leek", [], FieldsKind.unnamed⟩] ⟨"Leek", [], FieldsKind.unnamed⟩
    rfl (by decide) (by decide) (by decide)

/-- C6: supplying `ExistingTypePath` together with `PgType`, or together
with `DieselType`, on one derive input makes `derive` fail before any
artifact is emitted. -/
theorem c6_conflicting_config (features : Features) (input : DeriveInput) (p t : String)
    (hexist : val_from_attrs input.attrs "ExistingTypePath" = .ok (some p))
    (hconf : val_from_attrs input.attrs "PgType" = .ok (some t) ∨
             val_from_attrs input.attrs "DieselType" = .ok (some t)) :
    (derive features input).isOk = false := by
  have hres : ∃ msg, resolve_config features input = .error msg := by
    cases hpost : features.postgres with
    | false =>
      refine ⟨"ExistingTypePath attribute only applies when the \x27postgres\x27 feature is enabled", ?_⟩
      simp [resolve_config, hexist, hpost]
    | true =>
      rcases hconf with hpg | hdt
      · refine ⟨"Cannot specify both \x60ExistingTypePath\x60 and \x60PgType\x60 attributes", ?_⟩
        simp [resolve_config, hexist, hpost, hpg]
      · cases hpgv : val_from_attrs input.attrs "PgType" with
        | error e =>
          refine ⟨e, ?_⟩
          simp [resolve_config, hexist, hpost, hpgv]
        | ok o =>
          cases o with
          | some q =>
            refine ⟨"Cannot specify both \x60ExistingTypePath\x60 and \x60PgType\x60 attributes", ?_⟩
            simp [resolve_config, hexist, hpost, hpgv]
          | none =>
            refine ⟨"Cannot specify both \x60ExistingTypePath\x60 and \x60DieselType\x60 attributes", ?_⟩
            simp [resolve_config, hexist, hpost, hpgv, hdt]
  rcases hres with ⟨msg, hmsg⟩
  simp [derive, hmsg, Except.isOk, Except.toBool]

/-- C6 witness: a concrete input carrying both `ExistingTypePath` and
`PgType` produces no artifact. -/
theorem c6_conflicting_config_witness :
    (derive ⟨true, false, false⟩
        ⟨"MyEnum", [⟨"ExistingTypePath", AttrBody.nameValueStr "crate::schema::X"⟩,
            ⟨"PgType", AttrBody.nameValueStr "ty"⟩],
          DataKind.enumData []⟩).isOk = false :=
  c6_conflicting_config ⟨true, false, false⟩
    ⟨"MyEnum", [⟨"ExistingTypePath", AttrBody.nameValueStr "crate::schema::X"⟩,
        ⟨"PgType", AttrBody.nameValueStr "ty"⟩],
      DataKind.enumData []⟩
    "crate::schema::X" "ty" (by decide) (Or.inl (by decide))

/-- C9: when the corresponding directive is absent, the resolved
configuration defaults `DieselType` to `<EnumName>Mapping`, the case style
to snake_case, and `PgType` to the snake_case of the enum name. -/
theorem c9_defaults (features : Features) (input : DeriveInput) (cfg : ResolvedConfig)
    (hres : resolve_config features input = .ok cfg)
    (hpg : val_from_attrs input.attrs "PgType" = .ok none)
    (hdt : val_from_attrs input.attrs "DieselType" = .ok none)
    (hcs : val_from_attrs input.attrs "DbValueStyle" = .ok none) :
    cfg.new_diesel_mapping = input.ident ++ "Mapping" ∧
    cfg.case_style = CaseStyle.Snake ∧
    cfg.pg_internal_type = to_snake_case input.ident := by
  have hsnake : CaseStyle.from_string "snake_case" = Except.ok CaseStyle.Snake := by decide
  cases hex : val_from_attrs input.attrs "ExistingTypePath" with
  | error e =>
    simp [resolve_config, hex] at hres
  | ok ex =>
    by_cases hc : (!features.postgres && ex.isSome) = true
    · simp [resolve_config, hex, hc] at hres
    · simp only [resolve_config, hex] at hres
      rw [if_neg hc] at hres
      simp only [hpg] at hres
      rw [if_neg (by simp)] at hres
      simp only [hdt] at hres
      rw [if_neg (by simp)] at hres
      simp only [hcs, Option.getD_none, hsnake] at hres
      injection hres with h
      subst h
      exact ⟨rfl, rfl, rfl⟩

/-- C9 witness: a concrete enum with no attributes resolves to the default
mapping name, snake_case style, and snake_case internal type name. -/
theorem c9_defaults_witness :
    resolve_config ⟨true, false, false⟩ ⟨"MyEnum", [], DataKind.enumData []⟩ =
      .ok ⟨none, "my_enum", "MyEnumMapping", CaseStyle.Snake⟩ ∧
    ("MyEnumMapping" = "MyEnum" ++ "Mapping" ∧
      CaseStyle.Snake = CaseStyle.Snake ∧
      "my_enum" = to_snake_case "MyEnum") := by
  refine ⟨by decide, ?_⟩
  have h := c9_defaults ⟨true, false, false⟩ ⟨"MyEnum", [], DataKind.enumData []⟩
    ⟨none, "my_enum", "MyEnumMapping", CaseStyle.Snake⟩ (by decide) rfl rfl rfl
  exact ⟨h.1, rfl, h.2.2⟩

end DieselDeriveEnum
